import Mathlib

/-!
Verification of the `imagor-url-builder` TypeScript library (genox/imagor-url-builder).

The development shallowly embeds `src/imagor-url-builder.ts`:

* JS strings are `String`, JS numbers that the library manipulates are integral
  (method ranks, the `src` order parameter, `Date.now()`, `cacheTtl`), so they are
  embedded as `Int`/`Nat`.
* The mutable builder instance becomes an explicit `BuilderState` record threaded
  through the operations; the `async` methods become pure functions returning
  `Except Err _` (the thrown `Error`s) with `Date.now()` passed in as a parameter.
* The HMAC-SHA1/base64 primitive (`digest`, which defers to the platform crypto
  API) is kept abstract: every definition and theorem is parametric in a pure
  function `digest : String → String → String`, matching the spec's description
  of the signing provider as a deterministic pure function of (message, key).
* The `memoCache : Map<string, Promise<string>>` keyed by
  `JSON.stringify({src: this.src, parts, filters})` is embedded as an association
  list keyed by the pair `(parts, filters)`; `this.src` is a method (a function
  value), which `JSON.stringify` drops, and the JSON serialization is injective
  in `(parts, filters)`, so the pair is a faithful key.  A settled promise of a
  deterministic computation is its `Except` outcome.
-/

namespace Imagor

/-- Modelled from the spec: the `Methods` enumeration is imported from `~/methods`,
a file that is not part of this repository snapshot (only its callers are).  The
spec fixes the thirteen categories — unsafe-marker, meta-marker, fit-in,
full-fit-in, fit, full, stretch, adaptive, dimensions, padding, smart-crop,
filters-block, image-source — as distinct tokens, and its scenarios show the
marker values `unsafe` and `meta` literally.  Only distinctness and the
`"unsafe"` marker value are load-bearing below. -/
def Methods.UNSAFE : String := "unsafe"

/-- Modelled from the spec: the meta-marker token. -/
def Methods.META : String := "meta"

/-- Modelled from the spec: the fit-in token. -/
def Methods.FIT_IN : String := "fit-in"

/-- Modelled from the spec: the full-fit-in token. -/
def Methods.FULL_FIT_IN : String := "full-fit-in"

/-- Modelled from the spec: the fit token. -/
def Methods.FIT : String := "fit"

/-- Modelled from the spec: the full token. -/
def Methods.FULL : String := "full"

/-- Modelled from the spec: the stretch token. -/
def Methods.STRETCH : String := "stretch"

/-- Modelled from the spec: the adaptive token. -/
def Methods.ADAPTIVE : String := "adaptive"

/-- Modelled from the spec: the dimensions category token (used only as a rank key). -/
def Methods.DIMENSIONS : String := "dimensions"

/-- Modelled from the spec: the padding category token (used only as a rank key). -/
def Methods.PADDING : String := "padding"

/-- Modelled from the spec: the smart-crop token. -/
def Methods.SMART : String := "smart"

/-- Modelled from the spec: the filters-block category token (used only as a rank key). -/
def Methods.FILTERS : String := "filters"

/-- Modelled from the spec: the image-source category token (used only as a rank key). -/
def Methods.IMAGE : String := "image"

/-- The static `METHODS_ORDER` array of `ImagorUrlBuilder` (imagor-url-builder.ts:31-45). -/
def METHODS_ORDER : List String :=
  [Methods.UNSAFE, Methods.META, Methods.FIT_IN, Methods.FULL_FIT_IN, Methods.FIT,
   Methods.FULL, Methods.STRETCH, Methods.ADAPTIVE, Methods.DIMENSIONS, Methods.PADDING,
   Methods.SMART, Methods.FILTERS, Methods.IMAGE]

/-- The `methodsOrderMap.get(method) ?? 99` lookup (imagor-url-builder.ts:62-74): the
map sends each entry of `METHODS_ORDER` to its index, and unknown methods get 99. -/
def orderLookup (m : String) : Int :=
  match METHODS_ORDER.findIdx? (fun x => x == m) with
  | some i => (i : Int)
  | none => 99

/-- One accumulated path segment: the `{ order: number; value: string }` entries of
the private `parts` array (imagor-url-builder.ts:22). -/
structure Part where
  order : Int
  value : String
deriving DecidableEq, Repr

/-- The errors thrown by the builder. `missingServer` is
"Missing API URL for ImagorUrlBuilder" (line 54); `signingPrecondition` is
"Signing key is missing for ImagorUrlBuilder. Either set the key in the constructor
or use the unsafe() method." (lines 647-649). -/
inductive Err where
  | missingServer
  | signingPrecondition
deriving DecidableEq, Repr

/-- The constructor configuration `ImagorUrlBuilderConfig` with its defaults applied
(`imagorServerKey = ''`, `defaultFilters = []`, `cacheTtl = 0`). -/
structure Config where
  imagorServer : String
  imagorServerKey : String
  defaultFilters : List String
  cacheTtl : Int
deriving Repr

/-- JS `String.prototype.startsWith`, embedded over the character data so that it is
kernel-computable. -/
def strStartsWith (s pre : String) : Bool :=
  pre.data.isPrefixOf s.data

/-- JS `Set.prototype.add`: appends the string unless it is already present
(insertion order preserved, uniqueness by exact string value). -/
def addFilter (fs : List String) (f : String) : List String :=
  if f ∈ fs then fs else fs ++ [f]

/-- JS `new Set(iterable)`: deduplicates while keeping first-occurrence order. -/
def mkFilterSet (seed : List String) : List String :=
  seed.foldl addFilter []

/-- The mutable instance state of `ImagorUrlBuilder`: the `parts` array, the
`filters` set (insertion ordered) and the `memoCache` map. -/
structure BuilderState where
  parts : List Part
  filters : List String
  memoCache : List ((List Part × List String) × Except Err String)

/-- The state a freshly constructed instance starts in: empty parts, the filter set
seeded from `defaultFilters` (line 58), empty memo cache. -/
def startState (cfg : Config) : BuilderState :=
  { parts := [], filters := mkFilterSet cfg.defaultFilters, memoCache := [] }

/-- The constructor (imagor-url-builder.ts:47-65): throws when `imagorServer` is
falsy, otherwise produces the initial state. -/
def mkBuilder (cfg : Config) : Except Err BuilderState :=
  if cfg.imagorServer = "" then Except.error Err.missingServer
  else Except.ok (startState cfg)

/-- Shared shape of the positional mutators: push one `{order, value}` entry. -/
def pushPart (st : BuilderState) (p : Part) : BuilderState :=
  { st with parts := st.parts ++ [p] }

/-- The `meta()` method (line 81). -/
def meta (st : BuilderState) : BuilderState :=
  pushPart st { order := orderLookup Methods.META, value := Methods.META }

/-- The method that pushes the `"unsafe"` marker segment (imagor-url-builder.ts:91-94;
its source name is a Lean keyword, hence the different Lean name). -/
def markUnsafe (st : BuilderState) : BuilderState :=
  pushPart st { order := orderLookup Methods.UNSAFE, value := Methods.UNSAFE }

/-- The `fitIn()` method (line 106). -/
def fitIn (st : BuilderState) : BuilderState :=
  pushPart st { order := orderLookup Methods.FIT_IN, value := Methods.FIT_IN }

/-- The `smart()` method (line 262). -/
def smart (st : BuilderState) : BuilderState :=
  pushPart st { order := orderLookup Methods.SMART, value := Methods.SMART }

/-- A width/height argument: a number or the literal string `'orig'` (line 183). -/
inductive Dim where
  | px (n : Int)
  | orig

/-- Rendering of a dimension argument (`width === 'orig' ? 'orig' : width.toString()`). -/
def Dim.render : Dim → String
  | Dim.px n => toString n
  | Dim.orig => "orig"

/-- The `dimensions(width, height)` method (lines 183-191). -/
def dimensions (st : BuilderState) (w h : Dim) : BuilderState :=
  pushPart st { order := orderLookup Methods.DIMENSIONS, value := w.render ++ "x" ++ h.render }

/-- The `src(src, order = 99)` method (lines 566-569); the default order is 99 and the
caller may override it. -/
def src (st : BuilderState) (s : String) (order : Int) : BuilderState :=
  pushPart st { order := order, value := s }

/-- The generic `filter(filter)` escape hatch (lines 322-325). -/
def filter (st : BuilderState) (f : String) : BuilderState :=
  { st with filters := addFilter st.filters f }

/-- The `format(format)` method (lines 554-557). -/
def format (st : BuilderState) (fmt : String) : BuilderState :=
  { st with filters := addFilter st.filters ("format(" ++ fmt ++ ")") }

/-- The `quality(quality)` method (lines 599-602). -/
def quality (st : BuilderState) (q : Int) : BuilderState :=
  { st with filters := addFilter st.filters ("quality(" ++ toString q ++ ")") }

/-- The `blur(radius)` method, no sigma (lines 363-366). -/
def blur (st : BuilderState) (radius : Int) : BuilderState :=
  { st with filters := addFilter st.filters ("blur(" ++ toString radius ++ ")") }

/-- The `stripMetadata()` method (lines 577-581): adds the two fixed directives. -/
def stripMetadata (st : BuilderState) : BuilderState :=
  { st with filters := addFilter (addFilter st.filters "strip_exif()") "strip_icc()" }

/-- The `hasUnsafe` check of `generateUrl` (line 645):
`this.parts.some((part) => part.value === Methods.UNSAFE)`. -/
def hasUnsafeMark (parts : List Part) : Bool :=
  parts.any (fun p => p.value == Methods.UNSAFE)

/-- The canonical filter list built by `generateUrl` (lines 652-661): append
`format(jpeg)` when no directive starts with `format(`, then `quality(70)` when none
starts with `quality(`, then `expire(Date.now() + cacheTtl)` when `cacheTtl > 0`. -/
def canonicalFilters (filters : List String) (cacheTtl now : Int) : List String :=
  let f1 := if filters.any (fun f => strStartsWith f "format(") then filters
            else filters ++ ["format(jpeg)"]
  let f2 := if f1.any (fun f => strStartsWith f "quality(") then f1
            else f1 ++ ["quality(70)"]
  if 0 < cacheTtl then f2 ++ ["expire(" ++ toString (now + cacheTtl) ++ ")"] else f2

/-- The synthesized filters segment value (line 664):
`filtersArray.length ? 'filters:' + filtersArray.join(':') : ''`. -/
def filtersSegment (canon : List String) : String :=
  if canon = [] then "" else "filters:" ++ String.intercalate ":" canon

/-- Stable insertion of a part into an already sorted list: the element goes after
every element whose order is less than or equal to its own. -/
def insertPart : List Part → Part → List Part
  | [], p => [p]
  | q :: qs, p => if q.order ≤ p.order then q :: insertPart qs p else p :: q :: qs

/-- The `partsWithFilters.sort((a, b) => a.order - b.order)` call (line 672).
ES2019 `Array.prototype.sort` is a stable ascending sort, and the stable ascending
reordering of a list is unique, so left-to-right stable insertion sort is an exact
model of it. -/
def sortParts (l : List Part) : List Part :=
  l.foldl insertPart []

/-- The sorted, empty-value-free segment list of `generateUrl` (lines 663-672): the
accumulated parts plus the synthesized filters segment, with empty values dropped. -/
def compiledParts (cfg : Config) (parts : List Part) (filters : List String) (now : Int) :
    List Part :=
  sortParts (((parts ++
    [({ order := orderLookup Methods.FILTERS,
        value := filtersSegment (canonicalFilters filters cfg.cacheTtl now) } : Part)]).filter
    (fun p => p.value ≠ "")))

/-- The joined path (line 671-674): sorted segment values joined with `/`. -/
def joinedPath (cfg : Config) (parts : List Part) (filters : List String) (now : Int) :
    String :=
  String.intercalate "/" ((compiledParts cfg parts filters now).map Part.value)

/-- The private `sign(path, secret)` method (lines 734-737): the digest followed by
`'/'` followed by the path.  Note the source applies it unconditionally. -/
def sign (digest : String → String → String) (path secret : String) : String :=
  digest path secret ++ "/" ++ path

/-- The private `generateUrl()` method (lines 643-678): fail when neither the
`"unsafe"` marker nor a key is present, otherwise return
`imagorServer ++ "/" ++ sign(joined, imagorServerKey)`. -/
def generateUrl (digest : String → String → String) (cfg : Config)
    (parts : List Part) (filters : List String) (now : Int) : Except Err String :=
  if hasUnsafeMark parts = false ∧ cfg.imagorServerKey = "" then
    Except.error Err.signingPrecondition
  else
    Except.ok (cfg.imagorServer ++ "/" ++
      sign digest (joinedPath cfg parts filters now) cfg.imagorServerKey)

/-- The memo-cache key of `getUrl` (lines 613-617), see the header comment: the pair
`(parts, filters)` is a faithful embedding of the JSON key. -/
def stateKey (st : BuilderState) : List Part × List String :=
  (st.parts, st.filters)

/-- JS `Map.prototype.get` on the memo cache (entries are only ever added for absent
keys, so keys are unique and first-match lookup agrees with the map). -/
def cacheLookup (key : List Part × List String) :
    List ((List Part × List String) × Except Err String) → Option (Except Err String)
  | [] => none
  | (k, v) :: rest => if key = k then some v else cacheLookup key rest

/-- The public `getUrl()` method (lines 611-641).  On a cache hit the stored settled
promise is returned and `parts`/`filters` are cleared.  On a miss, the
`generateUrl()` promise is stored in the cache first; if it rejects the rejection
propagates with `parts`/`filters` untouched, and only on success are they cleared. -/
def getUrl (digest : String → String → String) (cfg : Config) (st : BuilderState)
    (now : Int) : Except Err String × BuilderState :=
  match cacheLookup (stateKey st) st.memoCache with
  | some v => (v, { st with parts := [], filters := [] })
  | none =>
    match generateUrl digest cfg st.parts st.filters now with
    | Except.error e =>
      (Except.error e, { st with memoCache := (stateKey st, Except.error e) :: st.memoCache })
    | Except.ok u =>
      (Except.ok u,
       { parts := [], filters := [], memoCache := (stateKey st, Except.ok u) :: st.memoCache })

/-- Cache well-formedness: every memoized entry is the settled outcome of
`generateUrl` for its key at some past instant.  It holds for the empty cache of a
fresh instance and is preserved by `getUrl` (see `getUrl_preserves_cacheOk`), so it
holds for every reachable instance state. -/
def CacheOk (digest : String → String → String) (cfg : Config) (st : BuilderState) : Prop :=
  ∀ p f v, cacheLookup (p, f) st.memoCache = some v →
    ∃ t, v = generateUrl digest cfg p f t

/-- Decidable equality of settled outcomes, for evaluating the embedding. -/
instance {ε α : Type} [DecidableEq ε] [DecidableEq α] : DecidableEq (Except ε α) := fun a b =>
  match a, b with
  | Except.ok x, Except.ok y =>
    if h : x = y then isTrue (by rw [h]) else isFalse (by intro hc; cases hc; exact h rfl)
  | Except.error x, Except.error y =>
    if h : x = y then isTrue (by rw [h]) else isFalse (by intro hc; cases hc; exact h rfl)
  | Except.ok _, Except.error _ => isFalse (by intro hc; cases hc)
  | Except.error _, Except.ok _ => isFalse (by intro hc; cases hc)

/-- The fixed example digest used to evaluate the embedding on concrete inputs. -/
def d0 : String → String → String := fun _ _ => "h"


theorem generateUrl_ok (digest : String → String → String) (cfg : Config)
    (parts : List Part) (filters : List String) (now : Int)
    (h : cfg.imagorServerKey ≠ "" ∨ hasUnsafeMark parts = true) :
    generateUrl digest cfg parts filters now =
      Except.ok (cfg.imagorServer ++ "/" ++
        sign digest (joinedPath cfg parts filters now) cfg.imagorServerKey) := by
  unfold generateUrl
  rw [if_neg]
  rintro ⟨h1, h2⟩
  rcases h with h | h
  · exact h h2
  · rw [h] at h1; cases h1

theorem generateUrl_error_iff (digest : String → String → String) (cfg : Config)
    (parts : List Part) (filters : List String) (now : Int) (e : Err) :
    generateUrl digest cfg parts filters now = Except.error e ↔
      e = Err.signingPrecondition ∧ hasUnsafeMark parts = false ∧
        cfg.imagorServerKey = "" := by
  unfold generateUrl
  split
  · rename_i hcond
    constructor
    · intro h; cases h; exact ⟨rfl, hcond.1, hcond.2⟩
    · intro ⟨he, _, _⟩; rw [he]
  · rename_i hcond
    constructor
    · intro h; cases h
    · intro ⟨he, h1, h2⟩; exact absurd ⟨h1, h2⟩ hcond

theorem cacheOk_of_nil (digest : String → String → String) (cfg : Config)
    (st : BuilderState) (h : st.memoCache = []) : CacheOk digest cfg st := by
  intro p f v hv
  rw [h] at hv
  simp [cacheLookup] at hv

theorem getUrl_preserves_cacheOk (digest : String → String → String) (cfg : Config)
    (st : BuilderState) (now : Int) (hc : CacheOk digest cfg st) :
    CacheOk digest cfg (getUrl digest cfg st now).2 := by
  unfold getUrl
  cases hl : cacheLookup (stateKey st) st.memoCache with
  | some v => exact fun p f w hw => hc p f w hw
  | none =>
    cases hg : generateUrl digest cfg st.parts st.filters now with
    | error e =>
      intro p f w hw
      simp only [cacheLookup] at hw
      split at hw
      · rename_i heq
        have hp : p = st.parts := congrArg Prod.fst heq
        have hf : f = st.filters := congrArg Prod.snd heq
        refine ⟨now, ?_⟩
        cases hw
        rw [hp, hf, hg]
      · exact hc p f w hw
    | ok u =>
      intro p f w hw
      simp only [cacheLookup] at hw
      split at hw
      · rename_i heq
        have hp : p = st.parts := congrArg Prod.fst heq
        have hf : f = st.filters := congrArg Prod.snd heq
        refine ⟨now, ?_⟩
        cases hw
        rw [hp, hf, hg]
      · exact hc p f w hw

theorem mem_insertPart {x p : Part} :
    ∀ {l : List Part}, x ∈ insertPart l p → x = p ∨ x ∈ l := by
  intro l
  induction l with
  | nil =>
    intro h
    simp [insertPart] at h
    exact Or.inl h
  | cons q qs ih =>
    intro h
    simp only [insertPart] at h
    split at h
    · rcases List.mem_cons.mp h with h | h
      · exact Or.inr (h ▸ List.mem_cons_self q qs)
      · rcases ih h with h | h
        · exact Or.inl h
        · exact Or.inr (List.mem_cons_of_mem q h)
    · rcases List.mem_cons.mp h with h | h
      · exact Or.inl h
      · exact Or.inr h

theorem pairwise_insertPart {p : Part} :
    ∀ {l : List Part}, l.Pairwise (fun a b => a.order ≤ b.order) →
      (insertPart l p).Pairwise (fun a b => a.order ≤ b.order) := by
  intro l
  induction l with
  | nil => intro _; simp [insertPart]
  | cons q qs ih =>
    intro h
    rcases List.pairwise_cons.mp h with ⟨hq, hqs⟩
    simp only [insertPart]
    split
    · rename_i hle
      refine List.pairwise_cons.mpr ⟨?_, ih hqs⟩
      intro x hx
      rcases mem_insertPart hx with hx | hx
      · rw [hx]; exact hle
      · exact hq x hx
    · rename_i hgt
      have hpq : p.order ≤ q.order := le_of_lt (lt_of_not_le hgt)
      refine List.pairwise_cons.mpr ⟨?_, h⟩
      intro x hx
      rcases List.mem_cons.mp hx with hx | hx
      · rw [hx]; exact hpq
      · exact le_trans hpq (hq x hx)

theorem sortParts_pairwise (l : List Part) :
    (sortParts l).Pairwise (fun a b => a.order ≤ b.order) := by
  have aux : ∀ (l acc : List Part), acc.Pairwise (fun a b => a.order ≤ b.order) →
      (l.foldl insertPart acc).Pairwise (fun a b => a.order ≤ b.order) := by
    intro l
    induction l with
    | nil => intro acc h; exact h
    | cons p ps ih => intro acc h; exact ih (insertPart acc p) (pairwise_insertPart h)
  exact aux l [] List.Pairwise.nil

/-- The default `format` directive appended by `generateUrl` (empty when some
accumulated directive already starts with `format(`). -/
def fmtDefault (fs : List String) : List String :=
  if fs.any (fun f => strStartsWith f "format(") then [] else ["format(jpeg)"]

/-- The default `quality` directive appended by `generateUrl`. -/
def qualDefault (fs : List String) : List String :=
  if fs.any (fun f => strStartsWith f "quality(") then [] else ["quality(70)"]

/-- The `expire` directive appended by `generateUrl` when a positive TTL is set. -/
def expireDefault (cacheTtl now : Int) : List String :=
  if 0 < cacheTtl then ["expire(" ++ toString (now + cacheTtl) ++ ")"] else []

theorem canonicalFilters_characterization (fs : List String) (cacheTtl now : Int) :
    canonicalFilters fs cacheTtl now =
      fs ++ fmtDefault fs ++ qualDefault fs ++ expireDefault cacheTtl now := by
  have h3 : strStartsWith "format(jpeg)" "quality(" = false := by decide
  have hq2 : ((fs ++ ["format(jpeg)"]).any (fun f => strStartsWith f "quality(")) =
      fs.any (fun f => strStartsWith f "quality(") := by
    rw [List.any_append]
    simp [List.any, h3]
  simp only [canonicalFilters, fmtDefault, qualDefault, expireDefault]
  by_cases hfmt : fs.any (fun f => strStartsWith f "format(") = true <;>
  by_cases hq : fs.any (fun f => strStartsWith f "quality(") = true <;>
  by_cases httl : (0 : Int) < cacheTtl <;>
    simp [hfmt, hq, httl, hq2, List.append_assoc]


theorem mem_addFilter_self (fs : List String) (f : String) : f ∈ addFilter fs f := by
  unfold addFilter
  split
  · assumption
  · exact List.mem_append_right fs (List.mem_singleton.mpr rfl)

theorem mem_addFilter_of_mem {a : String} {fs : List String} (f : String)
    (h : a ∈ fs) : a ∈ addFilter fs f := by
  unfold addFilter
  split
  · exact h
  · exact List.mem_append_left _ h

theorem mem_foldl_addFilter {a : String} :
    ∀ (l : List String) {fs : List String}, a ∈ fs → a ∈ l.foldl addFilter fs := by
  intro l
  induction l with
  | nil => intro fs h; exact h
  | cons x xs ih => intro fs h; exact ih (mem_addFilter_of_mem x h)

theorem mem_mkFilterSet {a : String} :
    ∀ {l : List String}, a ∈ l → a ∈ mkFilterSet l := by
  have aux : ∀ (l fs : List String), a ∈ l → a ∈ l.foldl addFilter fs := by
    intro l
    induction l with
    | nil => intro fs h; cases h
    | cons x xs ih =>
      intro fs h
      rcases List.mem_cons.mp h with h | h
      · subst h
        exact mem_foldl_addFilter xs (mem_addFilter_self fs a)
      · exact ih (addFilter fs x) h
  intro l h
  exact aux l [] h

theorem canonicalFilters_ne_nil (fs : List String) (cacheTtl now : Int) :
    canonicalFilters fs cacheTtl now ≠ [] := by
  rw [canonicalFilters_characterization]
  intro h
  rcases List.append_eq_nil.mp h with ⟨h1, _⟩
  rcases List.append_eq_nil.mp h1 with ⟨h2, _⟩
  rcases List.append_eq_nil.mp h2 with ⟨h3, h4⟩
  subst h3
  exact absurd h4 (by decide)

theorem filtersSegment_ne_empty {c : List String} (h : c ≠ []) :
    filtersSegment c ≠ "" := by
  unfold filtersSegment
  rw [if_neg h]
  intro hc
  have hlen := congrArg String.length hc
  rw [String.length_append] at hlen
  have h8 : ("filters:" : String).length = 8 := by decide
  rw [h8, show ("" : String).length = 0 from rfl] at hlen
  omega

theorem joinedPath_nil_parts (cfg : Config) (filters : List String) (now : Int) :
    joinedPath cfg [] filters now =
      filtersSegment (canonicalFilters filters cfg.cacheTtl now) := by
  have hne : filtersSegment (canonicalFilters filters cfg.cacheTtl now) ≠ "" :=
    filtersSegment_ne_empty (canonicalFilters_ne_nil filters cfg.cacheTtl now)
  unfold joinedPath compiledParts
  rw [List.nil_append, List.filter_cons, if_pos (decide_eq_true hne)]
  rfl

theorem getUrl_of_cacheHit (digest : String → String → String) (cfg : Config)
    (st : BuilderState) (now : Int) (v : Except Err String)
    (h : cacheLookup (stateKey st) st.memoCache = some v) :
    getUrl digest cfg st now = (v, { st with parts := [], filters := [] }) := by
  unfold getUrl
  rw [h]

theorem getUrl_of_fresh_error (digest : String → String → String) (cfg : Config)
    (st : BuilderState) (now : Int) (e : Err)
    (hl : cacheLookup (stateKey st) st.memoCache = none)
    (hg : generateUrl digest cfg st.parts st.filters now = Except.error e) :
    getUrl digest cfg st now =
      (Except.error e,
       { st with memoCache := (stateKey st, Except.error e) :: st.memoCache }) := by
  unfold getUrl
  rw [hl, hg]

theorem getUrl_of_fresh_ok (digest : String → String → String) (cfg : Config)
    (st : BuilderState) (now : Int) (u : String)
    (hl : cacheLookup (stateKey st) st.memoCache = none)
    (hg : generateUrl digest cfg st.parts st.filters now = Except.ok u) :
    getUrl digest cfg st now =
      (Except.ok u,
       { parts := [], filters := [],
         memoCache := (stateKey st, Except.ok u) :: st.memoCache }) := by
  unfold getUrl
  rw [hl, hg]

theorem generateUrl_error_of (digest : String → String → String) (cfg : Config)
    (parts : List Part) (filters : List String) (now : Int)
    (hu : hasUnsafeMark parts = false) (hk : cfg.imagorServerKey = "") :
    generateUrl digest cfg parts filters now = Except.error Err.signingPrecondition := by
  unfold generateUrl
  rw [if_pos ⟨hu, hk⟩]


/-- A configuration with server `"s"` and no signing key (the constructor default). -/
def cfgNoKey : Config :=
  { imagorServer := "s", imagorServerKey := "", defaultFilters := [], cacheTtl := 0 }

/-- A configuration with server `"s"` and signing key `"k"`. -/
def cfgK : Config :=
  { imagorServer := "s", imagorServerKey := "k", defaultFilters := [], cacheTtl := 0 }

/-- A configuration with a positive cache TTL. -/
def cfgT : Config :=
  { imagorServer := "s", imagorServerKey := "k", defaultFilters := [], cacheTtl := 5 }

/-- A configuration whose default filters coincide with the injected default. -/
def cfgDF : Config :=
  { imagorServer := "s", imagorServerKey := "k", defaultFilters := ["format(jpeg)"],
    cacheTtl := 0 }

/-- A configuration seeded with a default filter distinct from the injected ones. -/
def cfgDF2 : Config :=
  { imagorServer := "s", imagorServerKey := "k", defaultFilters := ["blur(3)"],
    cacheTtl := 0 }

/-- A keyless builder state accumulated with `dimensions(300, 200)`. -/
def stD : BuilderState := dimensions (startState cfgNoKey) (Dim.px 300) (Dim.px 200)

/-- A keyless builder state accumulated with `fitIn()`. -/
def stF : BuilderState := fitIn (startState cfgNoKey)

theorem hasUnsafeMark_false (parts : List Part) :
    hasUnsafeMark parts = false ↔ ∀ p ∈ parts, p.value ≠ Methods.UNSAFE := by
  unfold hasUnsafeMark
  rw [← Bool.not_eq_true, List.any_eq_true]
  constructor
  · intro h p hp hval
    exact h ⟨p, hp, beq_iff_eq.mpr hval⟩
  · rintro h ⟨p, hp, hval⟩
    exact h p hp (beq_iff_eq.mp hval)

theorem getUrl_ok_resets (digest : String → String → String) (cfg : Config)
    (st : BuilderState) (now : Int) (u : String)
    (hok : (getUrl digest cfg st now).1 = Except.ok u) :
    (getUrl digest cfg st now).2.parts = [] ∧ (getUrl digest cfg st now).2.filters = [] := by
  cases hl : cacheLookup (stateKey st) st.memoCache with
  | some v =>
    rw [getUrl_of_cacheHit digest cfg st now v hl]
    exact ⟨rfl, rfl⟩
  | none =>
    cases hg : generateUrl digest cfg st.parts st.filters now with
    | error e =>
      rw [getUrl_of_fresh_error digest cfg st now e hl hg] at hok
      simp at hok
    | ok w =>
      rw [getUrl_of_fresh_ok digest cfg st now w hl hg]
      exact ⟨rfl, rfl⟩

/-- The URL compiled for an entirely empty request at instant `t`: no source, only
the defaulted filters block, signed with the configured key. -/
def emptyRequestUrl (digest : String → String → String) (cfg : Config) (t : Int) : String :=
  cfg.imagorServer ++ "/" ++
    sign digest (filtersSegment (canonicalFilters [] cfg.cacheTtl t)) cfg.imagorServerKey

theorem generateUrl_empty_state (digest : String → String → String) (cfg : Config)
    (t : Int) (hk : cfg.imagorServerKey ≠ "") :
    generateUrl digest cfg [] [] t = Except.ok (emptyRequestUrl digest cfg t) := by
  rw [generateUrl_ok digest cfg [] [] t (Or.inl hk), joinedPath_nil_parts]
  rfl

theorem getUrl_empty_accumulator (digest : String → String → String) (cfg : Config)
    (st : BuilderState) (now : Int) (hk : cfg.imagorServerKey ≠ "")
    (hp : st.parts = []) (hf : st.filters = []) (hc : CacheOk digest cfg st) :
    ∃ t, (getUrl digest cfg st now).1 = Except.ok (emptyRequestUrl digest cfg t) := by
  cases hl : cacheLookup (stateKey st) st.memoCache with
  | some v =>
    rcases hc st.parts st.filters v hl with ⟨t, ht⟩
    refine ⟨t, ?_⟩
    rw [getUrl_of_cacheHit digest cfg st now v hl]
    show v = Except.ok (emptyRequestUrl digest cfg t)
    rw [ht, hp, hf]
    exact generateUrl_empty_state digest cfg t hk
  | none =>
    refine ⟨now, ?_⟩
    have hg : generateUrl digest cfg st.parts st.filters now =
        Except.ok (emptyRequestUrl digest cfg now) := by
      rw [hp, hf]
      exact generateUrl_empty_state digest cfg now hk
    rw [getUrl_of_fresh_ok digest cfg st now _ hl hg]

theorem mem_canonical_nil {d : String} (ttl t : Int)
    (hd : d ∈ canonicalFilters [] ttl t) :
    d = "format(jpeg)" ∨ d = "quality(70)" ∨
      d = "expire(" ++ toString (t + ttl) ++ ")" := by
  rw [canonicalFilters_characterization,
    show fmtDefault [] = ["format(jpeg)"] from rfl,
    show qualDefault [] = ["quality(70)"] from rfl] at hd
  unfold expireDefault at hd
  by_cases httl : (0 : Int) < ttl
  · rw [if_pos httl] at hd
    simp [List.mem_append] at hd
    tauto
  · rw [if_neg httl] at hd
    simp [List.mem_append] at hd
    tauto


/-- C1: the claim says that with the `"unsafe"` marker present `finalize()` returns
`<server>/<joined>` with no computed signature segment.  The code instead applies
`sign` unconditionally (line 677), so the result is `<server>/<digest>/<joined>`
even in unsafe mode: evaluating the embedding on a keyless builder after
`unsafe()` and `src('a.jpg')` yields `s/h/unsafe/...`, not `s/unsafe/...`. -/
theorem c1_unsafe_still_signed :
    (getUrl d0 cfgNoKey (src (markUnsafe (startState cfgNoKey)) "a.jpg" 99) 0).1 =
      Except.ok ("s/" ++ "h" ++ "/" ++ "unsafe/filters:format(jpeg):quality(70)/a.jpg") ∧
    ("s/" ++ "h" ++ "/" ++ "unsafe/filters:format(jpeg):quality(70)/a.jpg") ≠
      ("s/" ++ "unsafe/filters:format(jpeg):quality(70)/a.jpg") := by
  constructor <;> decide

/-- C2: on a builder without a signing secret whose segments do not include the
unsafe marker, `finalize()` fails with the signing-precondition error, whatever
the accumulated segments and filters; the result does not depend on the digest
function, so no signing is attempted. -/
theorem c2_missing_key_fails (digest : String → String → String) (cfg : Config)
    (st : BuilderState) (now : Int)
    (hk : cfg.imagorServerKey = "") (hu : hasUnsafeMark st.parts = false)
    (hc : CacheOk digest cfg st) :
    (getUrl digest cfg st now).1 = Except.error Err.signingPrecondition := by
  cases hl : cacheLookup (stateKey st) st.memoCache with
  | some v =>
    rcases hc st.parts st.filters v hl with ⟨t, ht⟩
    rw [getUrl_of_cacheHit digest cfg st now v hl]
    show v = Except.error Err.signingPrecondition
    rw [ht]
    exact generateUrl_error_of digest cfg st.parts st.filters t hu hk
  | none =>
    rw [getUrl_of_fresh_error digest cfg st now Err.signingPrecondition hl
      (generateUrl_error_of digest cfg st.parts st.filters now hu hk)]

/-- Witness for C2 at a concrete input: a keyless builder accumulated with
`dimensions(300, 200)`. -/
theorem c2_witness :
    (cfgNoKey.imagorServerKey = "" ∧ hasUnsafeMark stD.parts = false) ∧
    (getUrl d0 cfgNoKey stD 0).1 = Except.error Err.signingPrecondition := by
  refine ⟨⟨rfl, by decide⟩, ?_⟩
  exact c2_missing_key_fails d0 cfgNoKey stD 0 rfl (by decide)
    (cacheOk_of_nil d0 cfgNoKey stD rfl)

/-- C3 counterexample: with a positive cache TTL the next `finalize()` after a
successful one yields a filters block that also contains an `expire` directive,
not only the defaulted `format(jpeg)` and `quality(70)`. -/
theorem c3_counterexample :
    (getUrl d0 cfgT ((getUrl d0 cfgT (startState cfgT) 0).2) 7).1 =
      Except.ok "s/h/filters:format(jpeg):quality(70):expire(5)" ∧
    (getUrl d0 cfgT ((getUrl d0 cfgT (startState cfgT) 0).2) 7).1 ≠
      Except.ok "s/h/filters:format(jpeg):quality(70)" := by
  constructor <;> decide

/-- C3 amended: after every successful `finalize()` the segment list and filter set
are empty, and the next `finalize()` with no new accumulation (on a builder with a
secret) produces the URL of an entirely empty request: no source, a filters block
holding exactly the defaulted `format(jpeg)` and `quality(70)` plus the `expire`
directive exactly when a positive TTL is configured. -/
theorem c3_reset_after_success (digest : String → String → String) (cfg : Config)
    (st : BuilderState) (now now2 : Int) (u : String)
    (hk : cfg.imagorServerKey ≠ "") (hc : CacheOk digest cfg st)
    (hok : (getUrl digest cfg st now).1 = Except.ok u) :
    (getUrl digest cfg st now).2.parts = [] ∧
    (getUrl digest cfg st now).2.filters = [] ∧
    ∃ t, (getUrl digest cfg (getUrl digest cfg st now).2 now2).1 =
          Except.ok (emptyRequestUrl digest cfg t) ∧
        canonicalFilters [] cfg.cacheTtl t =
          ["format(jpeg)", "quality(70)"] ++ expireDefault cfg.cacheTtl t := by
  obtain ⟨h1, h2⟩ := getUrl_ok_resets digest cfg st now u hok
  refine ⟨h1, h2, ?_⟩
  obtain ⟨t, ht⟩ := getUrl_empty_accumulator digest cfg (getUrl digest cfg st now).2 now2 hk
    h1 h2 (getUrl_preserves_cacheOk digest cfg st now hc)
  refine ⟨t, ht, ?_⟩
  rw [canonicalFilters_characterization,
    show fmtDefault [] = ["format(jpeg)"] from rfl,
    show qualDefault [] = ["quality(70)"] from rfl]
  simp

/-- Witness for C3 amended: a builder with secret `"k"` and TTL 0, finalized twice. -/
theorem c3_witness :
    (cfgK.imagorServerKey ≠ "" ∧
      (getUrl d0 cfgK (startState cfgK) 0).1 =
        Except.ok "s/h/filters:format(jpeg):quality(70)") ∧
    ((getUrl d0 cfgK (startState cfgK) 0).2.parts = [] ∧
     (getUrl d0 cfgK (startState cfgK) 0).2.filters = [] ∧
     ∃ t, (getUrl d0 cfgK ((getUrl d0 cfgK (startState cfgK) 0).2) 1).1 =
           Except.ok (emptyRequestUrl d0 cfgK t) ∧
         canonicalFilters [] cfgK.cacheTtl t =
           ["format(jpeg)", "quality(70)"] ++ expireDefault cfgK.cacheTtl t) := by
  refine ⟨⟨by decide, by decide⟩, ?_⟩
  exact c3_reset_after_success d0 cfgK (startState cfgK) 0 1
    "s/h/filters:format(jpeg):quality(70)" (by decide)
    (cacheOk_of_nil d0 cfgK (startState cfgK) rfl) (by decide)

/-- C4 counterexample: when the caller himself accumulated `format(jpeg)`, the
compiled filters block does contain `format(jpeg)` although a directive starting
with `format(` is present, refuting the claimed equivalence. -/
theorem c4_counterexample :
    ("format(jpeg)" ∈ canonicalFilters ["format(jpeg)"] 0 0) ∧
    ((["format(jpeg)"] : List String).any (fun f => strStartsWith f "format(") = true) := by
  constructor <;> decide

/-- C4 amended: the compiled filter list is the accumulated directives in insertion
order followed by the appended defaults, where the `format(jpeg)` default is
appended iff no accumulated directive starts with `format(`, then the
`quality(70)` default iff none starts with `quality(`, then the `expire`
directive iff the TTL is positive. -/
theorem c4_default_filter_injection (fs : List String) (cacheTtl now : Int) :
    canonicalFilters fs cacheTtl now =
      fs ++ fmtDefault fs ++ qualDefault fs ++ expireDefault cacheTtl now ∧
    (fmtDefault fs = [] ↔ fs.any (fun f => strStartsWith f "format(") = true) ∧
    (qualDefault fs = [] ↔ fs.any (fun f => strStartsWith f "quality(") = true) ∧
    (expireDefault cacheTtl now = [] ↔ ¬(0 : Int) < cacheTtl) := by
  refine ⟨canonicalFilters_characterization fs cacheTtl now, ?_, ?_, ?_⟩
  · unfold fmtDefault
    split <;> rename_i h <;> simp [h]
  · unfold qualDefault
    split <;> rename_i h <;> simp [h]
  · unfold expireDefault
    split <;> rename_i h <;> simp [h]

/-- Witness for C4 amended: with `format(webp)` accumulated, no `format(jpeg)` is in
the compiled block. -/
theorem c4_witness :
    canonicalFilters ["format(webp)"] 0 0 = ["format(webp)", "quality(70)"] ∧
    "format(jpeg)" ∉ canonicalFilters ["format(webp)"] 0 0 := by
  have h := (c4_default_filter_injection ["format(webp)"] 0 0).1
  rw [h]
  constructor <;> decide


/-- C5 counterexample: `src` takes a caller-overridable order; with `src('a.jpg', 0)`
the image-source segment sorts before the synthesized filters block. -/
theorem c5_counterexample :
    ((compiledParts cfgK [(⟨0, "a.jpg"⟩ : Part)] ["blur(5)"] 0).map Part.value =
      ["a.jpg", "filters:blur(5):format(jpeg):quality(70)"]) ∧
    (getUrl d0 cfgK (filter (src (startState cfgK) "a.jpg" 0) "blur(5)") 0).1 =
      Except.ok "s/h/a.jpg/filters:blur(5):format(jpeg):quality(70)" := by
  constructor <;> decide

/-- C5 amended: in the compiled (sorted) segment list, every segment carrying the
filters-block rank (11) appears strictly before every segment carrying the default
source rank 99, so a source added through `src` without overriding the default
order always lands after the filters block. -/
theorem c5_source_after_filters (cfg : Config) (parts : List Part)
    (filters : List String) (now : Int) (i j : Nat)
    (hi : i < (compiledParts cfg parts filters now).length)
    (hj : j < (compiledParts cfg parts filters now).length)
    (hfi : ((compiledParts cfg parts filters now).get ⟨i, hi⟩).order =
        orderLookup Methods.FILTERS)
    (hsj : ((compiledParts cfg parts filters now).get ⟨j, hj⟩).order = 99) :
    i < j := by
  have hpw : (compiledParts cfg parts filters now).Pairwise
      (fun a b => a.order ≤ b.order) := by
    unfold compiledParts
    exact sortParts_pairwise _
  rcases Nat.lt_or_ge i j with h | h
  · exact h
  · exfalso
    rcases Nat.eq_or_lt_of_le h with heq | hlt
    · have hfin : (⟨j, hj⟩ : Fin (compiledParts cfg parts filters now).length) =
          ⟨i, hi⟩ := Fin.ext heq
      rw [hfin, hfi] at hsj
      exact absurd hsj (by decide)
    · have hle := (List.pairwise_iff_get.mp hpw) ⟨j, hj⟩ ⟨i, hi⟩ hlt
      rw [hfi, hsj] at hle
      exact absurd hle (by decide)

/-- Witness for C5 amended: with a default-rank source, the filters block is at
index 0 and the source at index 1. -/
theorem c5_witness :
    (((compiledParts cfgK [(⟨99, "a.jpg"⟩ : Part)] [] 0).get ⟨0, by decide⟩).order =
        orderLookup Methods.FILTERS ∧
     ((compiledParts cfgK [(⟨99, "a.jpg"⟩ : Part)] [] 0).get ⟨1, by decide⟩).order = 99) ∧
    (0 : Nat) < 1 := by
  refine ⟨⟨by decide, by decide⟩, ?_⟩
  exact c5_source_after_filters cfgK [(⟨99, "a.jpg"⟩ : Part)] [] 0 0 1
    (by decide) (by decide) (by decide) (by decide)

/-- C6 counterexample: a first failing `finalize()` memoizes the rejection; the
repeated failing call with the same accumulated state hits the memo cache and
clears the segment list, so the state is not left intact. -/
theorem c6_counterexample :
    (getUrl d0 cfgNoKey stD 0).1 = Except.error Err.signingPrecondition ∧
    (getUrl d0 cfgNoKey stD 0).2.parts = stD.parts ∧
    (getUrl d0 cfgNoKey stD 0).2.filters = stD.filters ∧
    (getUrl d0 cfgNoKey ((getUrl d0 cfgNoKey stD 0).2) 0).1 =
      Except.error Err.signingPrecondition ∧
    (getUrl d0 cfgNoKey ((getUrl d0 cfgNoKey stD 0).2) 0).2.parts = [] ∧
    (getUrl d0 cfgNoKey ((getUrl d0 cfgNoKey stD 0).2) 0).2.parts ≠ stD.parts := by
  refine ⟨?_, ?_, ?_, ?_, ?_, ?_⟩ <;> decide

/-- C6 amended: a signing-precondition failure whose state key is not yet memoized
leaves `parts` and `filters` intact (the rejection is memoized); the repeated
failing call with the same accumulated state fails again but clears both. -/
theorem c6_fresh_failure_state (digest : String → String → String) (cfg : Config)
    (st : BuilderState) (now now2 : Int)
    (hk : cfg.imagorServerKey = "") (hu : hasUnsafeMark st.parts = false)
    (hfresh : cacheLookup (stateKey st) st.memoCache = none) :
    (getUrl digest cfg st now).1 = Except.error Err.signingPrecondition ∧
    (getUrl digest cfg st now).2.parts = st.parts ∧
    (getUrl digest cfg st now).2.filters = st.filters ∧
    (getUrl digest cfg (getUrl digest cfg st now).2 now2).1 =
      Except.error Err.signingPrecondition ∧
    (getUrl digest cfg (getUrl digest cfg st now).2 now2).2.parts = [] ∧
    (getUrl digest cfg (getUrl digest cfg st now).2 now2).2.filters = [] := by
  have hg := generateUrl_error_of digest cfg st.parts st.filters now hu hk
  have h1 := getUrl_of_fresh_error digest cfg st now Err.signingPrecondition hfresh hg
  rw [h1]
  have hhit : cacheLookup
      (stateKey { st with
        memoCache := (stateKey st, Except.error Err.signingPrecondition) :: st.memoCache })
      ({ st with
        memoCache :=
          (stateKey st, Except.error Err.signingPrecondition) :: st.memoCache }).memoCache =
      some (Except.error Err.signingPrecondition) := by
    show cacheLookup (stateKey st)
      ((stateKey st, Except.error Err.signingPrecondition) :: st.memoCache) = _
    unfold cacheLookup
    rw [if_pos rfl]
  rw [getUrl_of_cacheHit digest cfg _ now2 _ hhit]
  exact ⟨rfl, rfl, rfl, rfl, rfl, rfl⟩

/-- Witness for C6 amended: a keyless builder accumulated with `fitIn()`. -/
theorem c6_witness :
    (cfgNoKey.imagorServerKey = "" ∧ hasUnsafeMark stF.parts = false ∧
      cacheLookup (stateKey stF) stF.memoCache = none) ∧
    ((getUrl d0 cfgNoKey stF 1).1 = Except.error Err.signingPrecondition ∧
     (getUrl d0 cfgNoKey stF 1).2.parts = stF.parts ∧
     (getUrl d0 cfgNoKey stF 1).2.filters = stF.filters ∧
     (getUrl d0 cfgNoKey ((getUrl d0 cfgNoKey stF 1).2) 2).1 =
       Except.error Err.signingPrecondition ∧
     (getUrl d0 cfgNoKey ((getUrl d0 cfgNoKey stF 1).2) 2).2.parts = [] ∧
     (getUrl d0 cfgNoKey ((getUrl d0 cfgNoKey stF 1).2) 2).2.filters = []) := by
  refine ⟨⟨rfl, by decide, by decide⟩, ?_⟩
  exact c6_fresh_failure_state d0 cfgNoKey stF 1 2 rfl (by decide) (by decide)

/-- C7: the claim says the `expire` argument is the epoch milliseconds plus the TTL
converted from seconds to milliseconds.  The code adds the raw `cacheTtl`
(line 660) without the unit conversion: with TTL 10 s at `Date.now() = 1000` ms the
directive is `expire(1010)`, not `expire(11000)`. -/
theorem c7_expire_ttl_not_scaled :
    canonicalFilters [] 10 1000 = ["format(jpeg)", "quality(70)", "expire(1010)"] ∧
    canonicalFilters [] 10 1000 ≠
      ["format(jpeg)", "quality(70)", "expire(" ++ toString (1000 + 10 * 1000) ++ ")"] := by
  constructor <;> decide

/-- C8: with a non-empty server and either a secret or the unsafe marker among the
accumulated segments, `finalize()` succeeds and the result starts with the
configured server address followed by a slash. -/
theorem c8_success_starts_with_server (digest : String → String → String) (cfg : Config)
    (st : BuilderState) (now : Int)
    (_hs : cfg.imagorServer ≠ "")
    (hp : cfg.imagorServerKey ≠ "" ∨ hasUnsafeMark st.parts = true)
    (hc : CacheOk digest cfg st) :
    ∃ rest, (getUrl digest cfg st now).1 =
      Except.ok (cfg.imagorServer ++ "/" ++ rest) := by
  cases hl : cacheLookup (stateKey st) st.memoCache with
  | some v =>
    rcases hc st.parts st.filters v hl with ⟨t, ht⟩
    refine ⟨sign digest (joinedPath cfg st.parts st.filters t) cfg.imagorServerKey, ?_⟩
    rw [getUrl_of_cacheHit digest cfg st now v hl]
    show v = _
    rw [ht]
    exact generateUrl_ok digest cfg st.parts st.filters t hp
  | none =>
    refine ⟨sign digest (joinedPath cfg st.parts st.filters now) cfg.imagorServerKey, ?_⟩
    rw [getUrl_of_fresh_ok digest cfg st now _ hl
      (generateUrl_ok digest cfg st.parts st.filters now hp)]

/-- Witness for C8: the keyed builder in its start state. -/
theorem c8_witness :
    (cfgK.imagorServer ≠ "" ∧
      (cfgK.imagorServerKey ≠ "" ∨ hasUnsafeMark (startState cfgK).parts = true)) ∧
    ∃ rest, (getUrl d0 cfgK (startState cfgK) 3).1 =
      Except.ok (cfgK.imagorServer ++ "/" ++ rest) := by
  refine ⟨⟨by decide, Or.inl (by decide)⟩, ?_⟩
  exact c8_success_starts_with_server d0 cfgK (startState cfgK) 3 (by decide)
    (Or.inl (by decide)) (cacheOk_of_nil d0 cfgK (startState cfgK) rfl)

/-- C9: the signing precondition fails exactly when the key is empty and no
accumulated segment has the exact value `"unsafe"`; the check is on segment
values, so `src('unsafe')` also satisfies it and finalization succeeds without a
secret. -/
theorem c9_precondition_on_values (digest : String → String → String) (cfg : Config)
    (parts : List Part) (filters : List String) (st : BuilderState) (now : Int) :
    (generateUrl digest cfg parts filters now = Except.error Err.signingPrecondition ↔
      cfg.imagorServerKey = "" ∧ ∀ p ∈ parts, p.value ≠ Methods.UNSAFE) ∧
    (cfg.imagorServerKey = "" →
      ∃ u, generateUrl digest cfg (src st Methods.UNSAFE 99).parts
        (src st Methods.UNSAFE 99).filters now = Except.ok u) := by
  constructor
  · rw [generateUrl_error_iff]
    constructor
    · rintro ⟨_, hu, hkey⟩
      exact ⟨hkey, (hasUnsafeMark_false parts).mp hu⟩
    · rintro ⟨hkey, hvals⟩
      exact ⟨rfl, (hasUnsafeMark_false parts).mpr hvals, hkey⟩
  · intro hkey
    refine ⟨_, generateUrl_ok digest cfg _ _ now (Or.inr ?_)⟩
    show hasUnsafeMark (st.parts ++ [(⟨99, Methods.UNSAFE⟩ : Part)]) = true
    unfold hasUnsafeMark
    rw [List.any_append]
    simp

/-- Witness for C9: empty key, no parts; and `src('unsafe')` succeeding keylessly. -/
theorem c9_witness :
    (generateUrl d0 cfgNoKey [] [] 0 = Except.error Err.signingPrecondition) ∧
    ∃ u, generateUrl d0 cfgNoKey (src (startState cfgNoKey) Methods.UNSAFE 99).parts
      (src (startState cfgNoKey) Methods.UNSAFE 99).filters 0 = Except.ok u := by
  constructor
  · exact (c9_precondition_on_values d0 cfgNoKey [] [] (startState cfgNoKey) 0).1.mpr
      ⟨rfl, by decide⟩
  · exact (c9_precondition_on_values d0 cfgNoKey [] [] (startState cfgNoKey) 0).2 rfl


/-- The state of a freshly constructed builder after arbitrary accumulation: parts
`p0`, filter set seeded from the configured `defaultFilters` and extended with
`more`, empty memo cache. -/
def accumState (cfg : Config) (p0 : List Part) (more : List String) : BuilderState :=
  { parts := p0, filters := List.foldl addFilter (mkFilterSet cfg.defaultFilters) more,
    memoCache := [] }

/-- C10 counterexample: with `defaultFilters = ["format(jpeg)"]` the directive is in
the same set as accumulated ones and is cleared by the first `finalize()`, yet the
second `finalize()`'s block contains `format(jpeg)` again (re-injected as the
default), refuting that every later finalize omits the seeded directives. -/
theorem c10_counterexample :
    (getUrl d0 cfgDF (startState cfgDF) 0).2.filters = [] ∧
    (getUrl d0 cfgDF ((getUrl d0 cfgDF (startState cfgDF) 0).2) 0).1 =
      Except.ok "s/h/filters:format(jpeg):quality(70)" ∧
    "format(jpeg)" ∈
      canonicalFilters ((getUrl d0 cfgDF (startState cfgDF) 0).2).filters
        cfgDF.cacheTtl 0 := by
  refine ⟨?_, ?_, ?_⟩ <;> decide

/-- C10 amended: the seeded default filters live in the same mutable set as
accumulated directives; the first `finalize()`'s block contains them all, the
successful call clears the set, and the next `finalize()`'s block consists only of
the injected defaults (`format(jpeg)`, `quality(70)`, and `expire` when a positive
TTL is configured) — so a seeded directive reappears only if it coincides with one
of those defaults. -/
theorem c10_default_filters_single_use (digest : String → String → String) (cfg : Config)
    (p0 : List Part) (more : List String) (now now2 : Int)
    (hk : cfg.imagorServerKey ≠ "") :
    (∀ d ∈ cfg.defaultFilters,
        d ∈ canonicalFilters (accumState cfg p0 more).filters cfg.cacheTtl now) ∧
    (getUrl digest cfg (accumState cfg p0 more) now).2.filters = [] ∧
    (getUrl digest cfg (accumState cfg p0 more) now).2.parts = [] ∧
    ∃ t, (getUrl digest cfg (getUrl digest cfg (accumState cfg p0 more) now).2 now2).1 =
          Except.ok (emptyRequestUrl digest cfg t) ∧
        ∀ d ∈ canonicalFilters [] cfg.cacheTtl t,
          d = "format(jpeg)" ∨ d = "quality(70)" ∨
            d = "expire(" ++ toString (t + cfg.cacheTtl) ++ ")" := by
  have hcon : ∀ d ∈ cfg.defaultFilters,
      d ∈ canonicalFilters (accumState cfg p0 more).filters cfg.cacheTtl now := by
    intro d hd
    rw [canonicalFilters_characterization]
    exact List.mem_append_left _ (List.mem_append_left _ (List.mem_append_left _
      (mem_foldl_addFilter more (mem_mkFilterSet hd))))
  have hg := generateUrl_ok digest cfg (accumState cfg p0 more).parts
    (accumState cfg p0 more).filters now (Or.inl hk)
  have hfresh : cacheLookup (stateKey (accumState cfg p0 more))
      (accumState cfg p0 more).memoCache = none := rfl
  have h1 := getUrl_of_fresh_ok digest cfg (accumState cfg p0 more) now _ hfresh hg
  have hreset : (getUrl digest cfg (accumState cfg p0 more) now).2.filters = [] ∧
      (getUrl digest cfg (accumState cfg p0 more) now).2.parts = [] := by
    rw [h1]
    exact ⟨rfl, rfl⟩
  refine ⟨hcon, hreset.1, hreset.2, ?_⟩
  obtain ⟨t, ht⟩ := getUrl_empty_accumulator digest cfg
    (getUrl digest cfg (accumState cfg p0 more) now).2 now2 hk hreset.2 hreset.1
    (getUrl_preserves_cacheOk digest cfg (accumState cfg p0 more) now
      (cacheOk_of_nil digest cfg (accumState cfg p0 more) rfl))
  exact ⟨t, ht, fun d hd => mem_canonical_nil cfg.cacheTtl t hd⟩

/-- Witness for C10 amended: a builder seeded with `blur(3)`, finalized twice. -/
theorem c10_witness :
    ((cfgDF2.imagorServerKey ≠ "") ∧
      ∀ d ∈ cfgDF2.defaultFilters,
        d ∈ canonicalFilters (accumState cfgDF2 [] []).filters cfgDF2.cacheTtl 0) ∧
    ((getUrl d0 cfgDF2 (accumState cfgDF2 [] []) 0).2.filters = [] ∧
     (getUrl d0 cfgDF2 (accumState cfgDF2 [] []) 0).2.parts = [] ∧
     ∃ t, (getUrl d0 cfgDF2 ((getUrl d0 cfgDF2 (accumState cfgDF2 [] []) 0).2) 1).1 =
           Except.ok (emptyRequestUrl d0 cfgDF2 t) ∧
         ∀ d ∈ canonicalFilters [] cfgDF2.cacheTtl t,
           d = "format(jpeg)" ∨ d = "quality(70)" ∨
             d = "expire(" ++ toString (t + cfgDF2.cacheTtl) ++ ")") := by
  have h := c10_default_filters_single_use d0 cfgDF2 [] [] 0 1 (by decide)
  exact ⟨⟨by decide, h.1⟩, h.2⟩

end Imagor
